import Mathlib

/-!
Verification of the sentinel outbreak-detection core (`src/backend/clustering.py`,
`src/backend/db.py`).

Conventions of the embedding:
* Python floats are modelled by exact rationals (`ℚ`); the transcendental
  haversine geometry (`math.sin`/`cos`/`asin`/`sqrt`) is modelled over `ℝ`.
* ISO timestamps are modelled as rational "days since epoch"; the code only
  ever subtracts timestamps and divides by 86400 seconds, so a timestamp is
  represented directly by its value in fractional days.
* Python `dict`s preserve insertion order, so they are modelled as ordered
  association lists.
* The static reference tables `DISEASE_SIGNATURES` and `BASELINE_RATES` are
  loaded from data files that are not part of the core sources; all
  definitions are parametric in those tables.
* Python string operations (`strip`, `lower`, `split`, substring `in`) are
  re-implemented over `List Char` by structural recursion so that every
  definition evaluates inside the kernel.  `lower` is modelled on the ASCII
  range, `strip` on the ASCII whitespace characters.
-/

namespace Sentinel

attribute [local semireducible] Rat.add Rat.mul Rat.sub Rat.inv Rat.ofScientific

/-- ASCII whitespace test used by `strip` (space, tab, newline, return). -/
def isWS (c : Char) : Bool := c.isWhitespace

/-- Drop leading and trailing whitespace, modelling Python `str.strip()`. -/
def trimChars (l : List Char) : List Char :=
  ((l.dropWhile isWS).reverse.dropWhile isWS).reverse

/-- Model of Python `s.strip().lower()`. -/
def strip_lower (s : String) : String :=
  String.mk ((trimChars s.data).map Char.toLower)

/-- Model of Python `str.lower()`. -/
def lowerStr (s : String) : String := String.mk (s.data.map Char.toLower)

/-- `takeEq needle l` holds when `needle` is an initial segment of `l`. -/
def takeEq : List Char → List Char → Bool
  | [], _ => true
  | _ :: _, [] => false
  | a :: as, b :: bs => a == b && takeEq as bs

/-- `occursIn needle hay` models Python `needle in hay` on strings. -/
def occursIn (needle : List Char) : List Char → Bool
  | [] => needle.isEmpty
  | c :: rest => takeEq needle (c :: rest) || occursIn needle rest

/-- Python `needle in hay` (substring containment). -/
def strContains (hay needle : String) : Bool := occursIn needle.data hay.data

/-- Split a character list at every comma, modelling Python `s.split(",")`. -/
def splitCommaAux : List Char → List Char → List (List Char)
  | [], acc => [acc.reverse]
  | c :: rest, acc =>
    if c == ',' then acc.reverse :: splitCommaAux rest []
    else splitCommaAux rest (c :: acc)

/-- Python `s.split(",")`. -/
def splitComma (s : String) : List String :=
  (splitCommaAux s.data []).map String.mk

/-! ### A model of Python `json.loads`

`_parse_symptoms` delegates to the standard-library JSON decoder, which is not
part of this repository; it is modelled here by a strict JSON reader over
`List Char` with explicit fuel (the grammar of RFC 8259: values, arrays,
objects, strings with escapes, numbers, `true`/`false`/`null`).  A `none`
result models `json.JSONDecodeError`.  The numeric payload is kept as its
lexeme: the program never consumes the value of a JSON number, only its type.
-/

inductive Jv where
  | null
  | jbool (b : Bool)
  | jnum (lit : String)
  | jstr (s : String)
  | jarr (elems : List Jv)
  | jobj (fields : List (String × Jv))

/-- JSON insignificant whitespace. -/
def skipWs : List Char → List Char
  | [] => []
  | c :: rest => if isWS c then skipWs rest else c :: rest

/-- Value of one hexadecimal digit (for `\uXXXX` escapes), written on the
raw character codes: 48-57 are `0`-`9`, 97-102 are `a`-`f`, 65-70 are
`A`-`F`. -/
def hexVal (c : Char) : Option Nat :=
  let n := c.toNat
  if 48 ≤ n && n ≤ 57 then some (n - 48)
  else if 97 ≤ n && n ≤ 102 then some (n - 87)
  else if 65 ≤ n && n ≤ 70 then some (n - 55)
  else none

def isDigit (c : Char) : Bool := '0' ≤ c && c ≤ '9'

/-- Body of a JSON string literal (after the opening quote): returns the
decoded characters and the remainder after the closing quote. -/
def strLitAux : List Char → List Char → Option (List Char × List Char)
  | _, [] => none
  | acc, '"' :: rest => some (acc.reverse, rest)
  | acc, '\\' :: e :: rest =>
    match e, rest with
    | '"', r => strLitAux ('"' :: acc) r
    | '\\', r => strLitAux ('\\' :: acc) r
    | '/', r => strLitAux ('/' :: acc) r
    | 'b', r => strLitAux (Char.ofNat 8 :: acc) r
    | 'f', r => strLitAux (Char.ofNat 12 :: acc) r
    | 'n', r => strLitAux ('\n' :: acc) r
    | 'r', r => strLitAux (Char.ofNat 13 :: acc) r
    | 't', r => strLitAux ('\t' :: acc) r
    | 'u', h1 :: h2 :: h3 :: h4 :: r =>
      match hexVal h1, hexVal h2, hexVal h3, hexVal h4 with
      | some a, some b, some c, some d =>
        strLitAux (Char.ofNat (((a * 16 + b) * 16 + c) * 16 + d) :: acc) r
      | _, _, _, _ => none
    | _, _ => none
  | acc, c :: rest =>
    if c.toNat < 32 then none else strLitAux (c :: acc) rest

/-- Lex the digit run at the head of the input. -/
def digitRun (l : List Char) : List Char × List Char :=
  (l.takeWhile isDigit, l.dropWhile isDigit)

/-- Lex a JSON number literal (RFC 8259 `number` production); returns the
lexeme and the remainder. -/
def numLit (l : List Char) : Option (List Char × List Char) :=
  let (sign, l1) := match l with
    | '-' :: r => (['-'], r)
    | _ => ([], l)
  match l1 with
  | '0' :: r1 =>
    (numFrac r1).map (fun (fr, r) => (sign ++ '0' :: fr, r))
  | c :: _ =>
    if isDigit c && c != '0' then
      let (ds, r1) := digitRun l1
      (numFrac r1).map (fun (fr, r) => (sign ++ ds ++ fr, r))
    else none
  | [] => none
where
  /-- Optional fraction and exponent parts. -/
  numFrac (l : List Char) : Option (List Char × List Char) :=
    let (fr, l2) := match l with
      | '.' :: r =>
        let (ds, r2) := digitRun r
        if ds.isEmpty then (none, l) else (some ('.' :: ds), r2)
      | _ => (none, l)
    match fr with
    | none => numExp l
    | some frl => (numExp l2).map (fun (ex, r) => (frl ++ ex, r))
  /-- Optional exponent part. -/
  numExp (l : List Char) : Option (List Char × List Char) :=
    match l with
    | c :: r =>
      if c == 'e' || c == 'E' then
        let (sg, r1) := match r with
          | '+' :: r2 => (['+'], r2)
          | '-' :: r2 => (['-'], r2)
          | _ => ([], r)
        let (ds, r2) := digitRun r1
        if ds.isEmpty then none else some (c :: sg ++ ds, r2)
      else some ([], l)
    | [] => some ([], l)

def lbrace : Char := Char.ofNat 123
def rbrace : Char := Char.ofNat 125

mutual

/-- Parse one JSON value; fuel bounds the nesting depth. -/
def parseVal : Nat → List Char → Option (Jv × List Char)
  | 0, _ => none
  | f + 1, l =>
    match skipWs l with
    | 'n' :: 'u' :: 'l' :: 'l' :: rest => some (.null, rest)
    | 't' :: 'r' :: 'u' :: 'e' :: rest => some (.jbool true, rest)
    | 'f' :: 'a' :: 'l' :: 's' :: 'e' :: rest => some (.jbool false, rest)
    | '"' :: rest =>
      (strLitAux [] rest).map (fun (cs, r) => (.jstr (String.mk cs), r))
    | '[' :: rest =>
      (match skipWs rest with
       | ']' :: r => some (.jarr [], r)
       | _ => (parseItems f rest).map (fun (vs, r) => (.jarr vs, r)))
    | c :: rest =>
      if c = lbrace then
        match skipWs rest with
        | r' =>
          if r'.head? = some rbrace then some (.jobj [], r'.tail)
          else (parseFields f rest).map (fun (fs, r) => (.jobj fs, r))
      else
        (numLit (c :: rest)).map (fun (cs, r) => (.jnum (String.mk cs), r))
    | [] => none

/-- Parse the comma-separated items of a non-empty JSON array, including the
closing bracket. -/
def parseItems : Nat → List Char → Option (List Jv × List Char)
  | 0, _ => none
  | f + 1, l => do
    let (v, r) ← parseVal f l
    match skipWs r with
    | ',' :: r2 => (parseItems f r2).map (fun (vs, r3) => (v :: vs, r3))
    | ']' :: r2 => some ([v], r2)
    | _ => none

/-- Parse the fields of a non-empty JSON object, including the closing brace. -/
def parseFields : Nat → List Char → Option (List (String × Jv) × List Char)
  | 0, _ => none
  | f + 1, l =>
    match skipWs l with
    | '"' :: rest => do
      let (key, r) ← strLitAux [] rest
      match skipWs r with
      | ':' :: r2 => do
        let (v, r3) ← parseVal f r2
        match skipWs r3 with
        | ',' :: r4 =>
          (parseFields f r4).map (fun (fs, r5) => ((String.mk key, v) :: fs, r5))
        | c :: r4 =>
          if c = rbrace then some ([(String.mk key, v)], r4) else none
        | [] => none
      | _ => none
    | _ => none

end

/-- Model of Python `json.loads`: parse a complete JSON document, requiring
the whole input to be consumed (up to trailing whitespace). -/
def json_loads (s : String) : Option Jv :=
  match parseVal (4 * s.data.length + 8) s.data with
  | some (v, rest) => if (skipWs rest).isEmpty then some v else none
  | none => none

/-! ### `_parse_symptoms` (clustering.py lines 33-43)

The Python list comprehension `[s.strip().lower() for s in parsed]` calls
`.strip()` on every element of a decoded JSON array; a non-string element
raises `AttributeError`, which the surrounding `except (json.JSONDecodeError,
TypeError)` clause does not catch.  The embedding therefore returns
`Except String (List String)`, where `.error "AttributeError"` models that
uncaught exception. -/

/-- `[s.strip().lower() for s in parsed]` over the elements of a decoded JSON
array: every element must be a string, otherwise `AttributeError`. -/
def strip_lower_all : List Jv → Except String (List String)
  | [] => .ok []
  | .jstr t :: rest =>
    (strip_lower_all rest).map (fun out => strip_lower t :: out)
  | _ :: _ => .error "AttributeError"

/-- `_parse_symptoms` (clustering.py lines 33-43). -/
def parse_symptoms (s : String) : Except String (List String) :=
  if s = "" then .ok []
  else
    match json_loads s with
    | some (.jarr l) => strip_lower_all l
    | _ => .ok ((splitComma s).map strip_lower)

/-! ### Constants (clustering.py lines 21-30) -/

def KM_PER_DEG_LAT : ℚ := 111
def SPATIAL_EPS_KM : ℚ := 2
def TEMPORAL_EPS_DAYS : ℚ := 3
def MIN_SAMPLES : Nat := 3
def SPATIAL_EPS_DEG : ℚ := SPATIAL_EPS_KM / KM_PER_DEG_LAT
def TIME_SCALE : ℚ := SPATIAL_EPS_DEG / TEMPORAL_EPS_DAYS

/-- One row of the `encounters` table as read by `run_clustering`
(`SELECT id, symptoms, lat, lng, timestamp, severity`).  The timestamp is
modelled in fractional days (see the file header). -/
structure Encounter where
  id : Nat
  symptoms : String
  lat : ℚ
  lng : ℚ
  timestamp : ℚ
  severity : Nat

/-- Feature vector of one encounter (clustering.py lines 108-115):
`(lat, lng, days_since_ref × TIME_SCALE)`. -/
def feature (refTime : ℚ) (e : Encounter) : ℚ × ℚ × ℚ :=
  (e.lat, e.lng, (e.timestamp - refTime) * TIME_SCALE)

/-- Squared Euclidean distance in the 3-D feature space (the DBSCAN metric is
`"euclidean"`; comparisons against `eps` are stated on squares to stay inside
`ℚ`). -/
def euclidSq (p q : ℚ × ℚ × ℚ) : ℚ :=
  (p.1 - q.1) ^ 2 + (p.2.1 - q.2.1) ^ 2 + (p.2.2 - q.2.2) ^ 2

/-- Squared planar spatial distance between two encounters in kilometres,
under the code's fixed 111.0 km-per-degree approximation. -/
def spatialSqKm (e1 e2 : Encounter) : ℚ :=
  ((e1.lat - e2.lat) ^ 2 + (e1.lng - e2.lng) ^ 2) * KM_PER_DEG_LAT ^ 2

/-! ### Disease signature matching (`_match_disease`, clustering.py lines 46-70)

`DISEASE_SIGNATURES` is loaded from a data file outside the core sources, so
every definition is parametric in the signature table (an insertion-ordered
association list, mirroring the Python `dict`). -/

/-- One disease signature: `{probability_weights, min_cluster_size}`; the
weights keep their declaration order.  `min_cluster_size` may be absent
(`sig.get("min_cluster_size", 3)`). -/
structure Signature where
  probability_weights : List (String × ℚ)
  min_cluster_size : Option Nat

/-- The symptom-count map of a cluster: insertion-ordered association list
with pairwise-distinct keys (a Python `dict`). -/
abbrev SymptomCounts := List (String × Nat)

/-- The inner `for reported in symptom_counts: if symptom in reported or
reported in symptom: ...; break` loop — the first reported symptom matching
keyword `kw` by substring containment in either direction. -/
def first_match (counts : SymptomCounts) (kw : String) : Option (String × Nat) :=
  counts.find? (fun rc => strContains rc.1 kw || strContains kw rc.1)

/-- Score of one signature (`_match_disease` loop body, lines 52-63). -/
def sig_score (sig : Signature) (counts : SymptomCounts) (total : Nat) : ℚ :=
  let base := sig.probability_weights.foldl
    (fun acc kwv =>
      match first_match counts kwv.1 with
      | some rc => acc + kwv.2 * min ((rc.2 : ℚ) / (total : ℚ)) 1
      | none => acc) 0
  if total ≥ sig.min_cluster_size.getD 3 then base * 1.2 else base

/-- Python `round(q, 3)`. -/
def round3 (q : ℚ) : ℚ := ((round (q * 1000) : ℤ) : ℚ) / 1000

/-- The best-of loop of `_match_disease` (lines 48-67): update the running
best whenever a score is strictly higher. -/
def best_fold (f : String × Signature → ℚ) :
    List (String × Signature) → String × ℚ → String × ℚ
  | [], b => b
  | p :: rest, b => best_fold f rest (if b.2 < f p then (p.1, f p) else b)

/-- `_match_disease` (clustering.py lines 46-70): returns
`(best_disease, round(min(best_score, 1.0), 3))`. -/
def match_disease (sigs : List (String × Signature)) (counts : SymptomCounts)
    (total : Nat) : String × ℚ :=
  let b := best_fold (fun p => sig_score p.2 counts total) sigs ("unknown", 0)
  (b.1, round3 (min b.2 1))

/-! Spec-side formulation of the score (§4.3 of the spec): a sum over the
weighted keywords, with case-insensitive substring matching. -/

/-- Case-insensitive substring containment in one direction. -/
def ciContains (hay needle : String) : Bool :=
  strContains (lowerStr hay) (lowerStr needle)

/-- First reported symptom matching `kw` by **case-insensitive** substring
containment in either direction (spec wording). -/
def first_match_ci (counts : SymptomCounts) (kw : String) : Option (String × Nat) :=
  counts.find? (fun rc => ciContains rc.1 kw || ciContains kw rc.1)

/-- Spec-side contribution of one weighted keyword: `weight × min(1, freq)`
for the first case-insensitive match, `0` when no reported symptom matches. -/
def kw_contribution (counts : SymptomCounts) (total : Nat) (kwv : String × ℚ) : ℚ :=
  match first_match_ci counts kwv.1 with
  | some rc => kwv.2 * min 1 ((rc.2 : ℚ) / (total : ℚ))
  | none => 0

/-- Spec-side score: `Σ weight × min(1, freq)`, multiplied by 1.2 exactly when
the member total reaches the signature's minimum cluster size. -/
def sig_score_spec (sig : Signature) (counts : SymptomCounts) (total : Nat) : ℚ :=
  (if sig.min_cluster_size.getD 3 ≤ total then (1.2 : ℚ) else 1) *
    (sig.probability_weights.map (kw_contribution counts total)).sum

/-! ### Anomaly scoring (`_anomaly_score`, clustering.py lines 73-80) -/

/-- Python `round(q, 2)`. -/
def round2 (q : ℚ) : ℚ := ((round (q * 100) : ℤ) : ℚ) / 100

/-- The `BASELINE_RATES` table (a data file outside the core sources):
region → disease → baseline cases/day.  The file always carries a
`"default"` entry (spec §3), modelled as the separate field `dflt`;
`regions` holds the remaining region tables. -/
structure BaselineRates where
  regions : List (String × List (String × ℚ))
  dflt : List (String × ℚ)

/-- `_anomaly_score` (clustering.py lines 73-80).  The source's default
argument `region="dhaka"` is reproduced. -/
def anomaly_score (rates : BaselineRates) (disease : String) (case_count : Nat)
    (days_span : ℚ) (region : String := "dhaka") : ℚ :=
  let table := (rates.regions.lookup region).getD rates.dflt
  let baseline := (table.lookup disease).getD (1/100)
  let days := max days_span 1
  let observed_rate := (case_count : ℚ) / days
  let score := if 0 < baseline then (observed_rate - baseline) / baseline
    else observed_rate
  round2 (max score 0)

/-! ### Per-cluster symptom profile, time span and anomaly
(run_clustering, clustering.py lines 144-160) -/

/-- `symptom_counts[s] = symptom_counts.get(s, 0) + 1` on an
insertion-ordered association list. -/
def bump (counts : SymptomCounts) (s : String) : SymptomCounts :=
  if counts.any (fun p => p.1 == s) then
    counts.map (fun p => if p.1 == s then (p.1, p.2 + 1) else p)
  else counts ++ [(s, 1)]

/-- Lines 145-148: fold every member's parsed symptoms into the count map;
a parsing exception propagates out of `run_clustering`. -/
def symptom_counts_aux (acc : SymptomCounts) :
    List Encounter → Except String SymptomCounts
  | [] => .ok acc
  | e :: rest =>
    match parse_symptoms e.symptoms with
    | .error err => .error err
    | .ok syms => symptom_counts_aux (syms.foldl bump acc) rest

def symptom_counts (ms : List Encounter) : Except String SymptomCounts :=
  symptom_counts_aux [] ms

/-- Python `max` over a non-empty list of rationals (the `[]` case is never
reached by the callers). -/
def maxQ : List ℚ → ℚ
  | [] => 0
  | [x] => x
  | x :: rest => max x (maxQ rest)

/-- Python `min` over a non-empty list of rationals. -/
def minQ : List ℚ → ℚ
  | [] => 0
  | [x] => x
  | x :: rest => min x (minQ rest)

/-- Lines 157-158: `days_span = (max(times) - min(times))` in fractional
days. -/
def cluster_span (ms : List Encounter) : ℚ :=
  maxQ (ms.map (·.timestamp)) - minQ (ms.map (·.timestamp))

/-- Lines 144-160: the anomaly score attached to a cluster with member list
`ms` — `_anomaly_score(disease, len(cluster_encounters), days_span)`, with
the `region` argument left at its default `"dhaka"`. -/
def cluster_anomaly (sigs : List (String × Signature)) (rates : BaselineRates)
    (ms : List Encounter) : Except String ℚ :=
  (symptom_counts ms).map (fun counts =>
    anomaly_score rates (match_disease sigs counts ms.length).1 ms.length
      (cluster_span ms))

/-! ### Cluster geometry (`_haversine_km`, lines 83-89; centre and radius,
lines 131-142).  The trigonometric functions force this layer onto `ℝ`. -/

/-- Python `math.radians`. -/
noncomputable def radians (x : ℝ) : ℝ := x * Real.pi / 180

/-- `_haversine_km` (clustering.py lines 83-89). -/
noncomputable def haversine_km (lat1 lng1 lat2 lng2 : ℝ) : ℝ :=
  let r : ℝ := 6371
  let dlat := radians (lat2 - lat1)
  let dlng := radians (lng2 - lng1)
  let a := Real.sin (dlat / 2) ^ 2 +
    Real.cos (radians lat1) * Real.cos (radians lat2) * Real.sin (dlng / 2) ^ 2
  r * 2 * Real.arcsin (Real.sqrt a)

/-- `sum(xs) / len(xs)` (the callers only apply it to non-empty lists). -/
def mean (xs : List ℚ) : ℚ := xs.sum / (xs.length : ℚ)

/-- Line 134: `center_lat = sum(lats) / len(lats)`. -/
def centroid_lat (ms : List Encounter) : ℚ := mean (ms.map (·.lat))

/-- Line 135: `center_lng = sum(lngs) / len(lngs)`. -/
def centroid_lng (ms : List Encounter) : ℚ := mean (ms.map (·.lng))

/-- Python `max(_haversine_km(center_lat, center_lng, lat, lng) for lat, lng
in zip(lats, lngs))` over a non-empty member list (lines 138-141). -/
noncomputable def max_haversine (clat clng : ℝ) : List Encounter → ℝ
  | [] => 0
  | [m] => haversine_km clat clng (m.lat : ℝ) (m.lng : ℝ)
  | m :: rest =>
    max (haversine_km clat clng (m.lat : ℝ) (m.lng : ℝ))
      (max_haversine clat clng rest)

/-- Lines 138-142: the cluster radius, floored at 0.1 km. -/
noncomputable def cluster_radius (ms : List Encounter) : ℝ :=
  max (max_haversine ((centroid_lat ms : ℚ) : ℝ) ((centroid_lng ms : ℚ) : ℝ) ms)
    0.1

/-- Python `round(x, 2)` on a float, modelled over `ℝ`. -/
noncomputable def round2R (x : ℝ) : ℝ := ((round (x * 100) : ℤ) : ℝ) / 100

/-- Line 165: the `radius_km` field actually stored on the cluster record. -/
noncomputable def cluster_radius_km (ms : List Encounter) : ℝ :=
  round2R (cluster_radius ms)

/-! ### Cluster assembly and `run_clustering` (lines 92-174) -/

/-- Python `round(q, 6)` (lines 163-164). -/
def round6 (q : ℚ) : ℚ := ((round (q * 1000000) : ℤ) : ℚ) / 1000000

/-- Stable insertion (descending by `cnt`) used to model Python's stable
`sorted(..., reverse=True)` via a right fold: an element is placed before the
first existing element whose count does not exceed its own, so equal counts
keep their first-seen order. -/
def insertDesc (cnt : String → Nat) (x : String) : List String → List String
  | [] => [x]
  | y :: ys => if cnt y ≤ cnt x then x :: y :: ys else y :: insertDesc cnt x ys

/-- Stable descending sort by count (Python `sorted(keys, key=count,
reverse=True)`; `sorted` is stable, so equal counts keep first-seen order). -/
def sortDescBy (cnt : String → Nat) (l : List String) : List String :=
  l.foldr (insertDesc cnt) []

/-- Lines 150-151: the top (at most) five symptoms by descending frequency. -/
def dominant_symptoms (counts : SymptomCounts) : List String :=
  (sortDescBy (fun s => (counts.lookup s).getD 0) (counts.map (·.1))).take 5

/-- One element of `run_clustering`'s output list (the dict built in lines
162-172).  `dominant_symptoms` is stored in Python as a JSON-encoded string;
it is modelled as the list itself. -/
structure ClusterOut where
  center_lat : ℚ
  center_lng : ℚ
  radius_km : ℝ
  anomaly_score : ℚ
  case_count : Nat
  dominant_symptoms : List String
  probable_disease : String
  confidence : ℚ
  encounter_ids : List Nat

/-- The per-label cluster record built in the body of the `for label in
unique_labels` loop (lines 127-172). -/
noncomputable def build_cluster (sigs : List (String × Signature))
    (rates : BaselineRates) (ms : List Encounter) : Except String ClusterOut :=
  (symptom_counts ms).map (fun counts =>
    let md := match_disease sigs counts ms.length
    { center_lat := round6 (centroid_lat ms)
      center_lng := round6 (centroid_lng ms)
      radius_km := cluster_radius_km ms
      anomaly_score := anomaly_score rates md.1 ms.length (cluster_span ms)
      case_count := ms.length
      dominant_symptoms := dominant_symptoms counts
      probable_disease := md.1
      confidence := md.2
      encounter_ids := ms.map (·.id) })

/-- Line 124-125: `unique_labels = set(labels); unique_labels.discard(-1)`.
CPython's set iteration order is unspecified; it is modelled as
first-occurrence order (no claim depends on the order of the output list). -/
def uniqueLabels (labels : List Int) : List Int :=
  (labels.filter (fun l => l != -1)).eraseDups

/-- Line 128-129: the members carrying a given label, in input order. -/
def members_of (labels : List Int) (encs : List Encounter) (lab : Int) :
    List Encounter :=
  ((labels.zip encs).filter (fun p => p.1 == lab)).map (·.2)

/-- `run_clustering` (clustering.py lines 92-174), parametric in the static
tables and in the DBSCAN labelling function (scikit-learn's
`DBSCAN(eps=SPATIAL_EPS_DEG, min_samples=MIN_SAMPLES,
metric="euclidean").fit_predict`, an external library this repository only
calls).  `encs` is the list of encounter rows ordered by timestamp, as
delivered by the `ORDER BY timestamp` query. -/
noncomputable def run_clustering (sigs : List (String × Signature))
    (rates : BaselineRates) (dbscan : List (ℚ × ℚ × ℚ) → List Int)
    (encs : List Encounter) : Except String (List ClusterOut) :=
  if encs.length < MIN_SAMPLES then .ok []
  else
    match encs with
    | [] => .ok []
    | e0 :: _ =>
      let labels := dbscan (encs.map (feature e0.timestamp))
      (uniqueLabels labels).mapM
        (fun lab => build_cluster sigs rates (members_of labels encs lab))

/-! ### Persistence (`detect_and_store`, clustering.py lines 177-204, over
the schema of db.py)

The persisted state is modelled by `DBState`: the `clusters` table, the
`agent_events` table (only its `cluster_id` foreign key matters here, but the
other columns are carried), and the SQLite `AUTOINCREMENT` counter for
cluster ids. -/

/-- One row of the `clusters` table (db.py lines 35-47). -/
structure ClusterRow where
  id : Nat
  center_lat : ℚ
  center_lng : ℚ
  radius_km : ℝ
  anomaly_score : ℚ
  case_count : Nat
  dominant_symptoms : List String
  probable_disease : String
  confidence : ℚ
  status : String

/-- One row of the `agent_events` table (db.py lines 49-57). -/
structure AgentEvent where
  id : Nat
  agent : String
  message : String
  severity : String
  cluster_id : Option Nat

/-- The persisted database state seen by `detect_and_store`. -/
structure DBState where
  clusters : List ClusterRow
  agent_events : List AgentEvent
  next_cluster_id : Nat

/-- `SELECT id FROM clusters WHERE status = 'active'`. -/
def active_ids (st : DBState) : List Nat :=
  (st.clusters.filter (fun r => r.status == "active")).map (·.id)

/-- The row inserted for one computed cluster (lines 191-198): all cluster
fields, `status='active'`, and the id assigned by `AUTOINCREMENT`. -/
def mkRow (c : ClusterOut) (i : Nat) : ClusterRow :=
  { id := i
    center_lat := c.center_lat
    center_lng := c.center_lng
    radius_km := c.radius_km
    anomaly_score := c.anomaly_score
    case_count := c.case_count
    dominant_symptoms := c.dominant_symptoms
    probable_disease := c.probable_disease
    confidence := c.confidence
    status := "active" }

/-- The insert loop (lines 189-200): consecutive `AUTOINCREMENT` ids starting
at the current counter. -/
def insertRows : List ClusterOut → Nat → List ClusterRow
  | [], _ => []
  | c :: cs, n => mkRow c n :: insertRows cs (n + 1)

/-- `detect_and_store` (clustering.py lines 177-204), parametric in the
cluster list computed by `run_clustering` (line 179): on an empty result it
returns immediately without touching the database; otherwise, in one
transaction, it nulls the `agent_events.cluster_id` references to currently
active clusters, deletes all active cluster rows, and inserts the new
clusters as `'active'`.  Returns the stored rows and the new state. -/
def detect_and_store (found : List ClusterOut) (st : DBState) :
    List ClusterRow × DBState :=
  if found.isEmpty then ([], st)
  else
    let act := active_ids st
    let events := st.agent_events.map (fun e =>
      match e.cluster_id with
      | some cid => if cid ∈ act then { e with cluster_id := none } else e
      | none => e)
    let kept := st.clusters.filter (fun r => !(r.status == "active"))
    let inserted := insertRows found st.next_cluster_id
    (inserted,
      { clusters := kept ++ inserted
        agent_events := events
        next_cluster_id := st.next_cluster_id + found.length })

/-- Is a JSON value a string? (Only string elements survive the
`s.strip().lower()` comprehension.) -/
def isStrJv : Jv → Bool
  | .jstr _ => true
  | _ => false

theorem strip_lower_all_ok_of_all_str (l : List Jv)
    (h : ∀ v ∈ l, isStrJv v = true) :
    ∃ out, strip_lower_all l = .ok out := by
  induction l with
  | nil => exact ⟨[], rfl⟩
  | cons v rest ih =>
    obtain ⟨t, rfl⟩ : ∃ t, v = .jstr t := by
      have hv := h v (List.mem_cons_self v rest)
      cases v <;> simp [isStrJv] at hv ⊢
    obtain ⟨out, hout⟩ := ih (fun w hw => h w (List.mem_cons_of_mem _ hw))
    exact ⟨strip_lower t :: out, by simp [strip_lower_all, hout, Except.map]⟩

/-- C3 (amended): symptom parsing never raises **except** when the input is a
JSON array containing a non-string element (Python's `AttributeError` from
`s.strip()` on a non-string, which the `except` clause does not catch); a JSON
array of strings parses to the lowercased, trimmed entries, and a string that
is not a JSON array falls back to comma-splitting. -/
theorem parse_symptoms_total_except_nonstring_array :
    (∀ s : String, (∃ out, parse_symptoms s = .ok out) ∨
      ∃ l, json_loads s = some (.jarr l) ∧ ∃ v ∈ l, isStrJv v = false) ∧
    parse_symptoms "[\"a\",\"b\"]" = .ok ["a", "b"] ∧
    parse_symptoms "a, b" = .ok ["a", "b"] := by
  refine ⟨fun s => ?_, rfl, rfl⟩
  by_cases hs : s = ""
  · exact .inl ⟨[], by simp [parse_symptoms, hs]⟩
  · match hj : json_loads s with
    | none =>
      exact .inl ⟨(splitComma s).map strip_lower, by simp [parse_symptoms, hs, hj]⟩
    | some .null =>
      exact .inl ⟨(splitComma s).map strip_lower, by simp [parse_symptoms, hs, hj]⟩
    | some (.jbool b) =>
      exact .inl ⟨(splitComma s).map strip_lower, by simp [parse_symptoms, hs, hj]⟩
    | some (.jnum n) =>
      exact .inl ⟨(splitComma s).map strip_lower, by simp [parse_symptoms, hs, hj]⟩
    | some (.jstr t) =>
      exact .inl ⟨(splitComma s).map strip_lower, by simp [parse_symptoms, hs, hj]⟩
    | some (.jobj fs) =>
      exact .inl ⟨(splitComma s).map strip_lower, by simp [parse_symptoms, hs, hj]⟩
    | some (.jarr l) =>
      by_cases hall : ∀ v ∈ l, isStrJv v = true
      · obtain ⟨out, hout⟩ := strip_lower_all_ok_of_all_str l hall
        exact .inl ⟨out, by simp [parse_symptoms, hs, hj, hout]⟩
      · refine .inr ⟨l, rfl, ?_⟩
        push_neg at hall
        obtain ⟨v, hv, hne⟩ := hall
        exact ⟨v, hv, by simpa using hne⟩

/-- C3 (counterexample): the claim "symptom parsing never raises" is false —
the JSON list `[1, 2]` decodes successfully, and the element `1` then raises
`AttributeError` (uncaught by the `except (JSONDecodeError, TypeError)`
clause). -/
theorem parse_symptoms_raises_on_nonstring_list :
    parse_symptoms "[1, 2]" = .error "AttributeError" := rfl

/-- C4 (counterexample): the claimed equivalence "feature-space Euclidean
distance ≤ `SPATIAL_EPS_DEG` ⟺ within 2 km spatially AND within 3 days
temporally" fails: two encounters exactly 2 km apart and exactly 3 days apart
satisfy the right side, but their feature distance is `eps·√2 > eps` (the
Euclidean ball is not the spatial-temporal cylinder). -/
theorem feature_eps_iff_counterexample :
    ¬ (euclidSq (feature 0 ⟨1, "", 0, 0, 0, 1⟩) (feature 0 ⟨2, "", 2/111, 0, 3, 1⟩)
          ≤ SPATIAL_EPS_DEG ^ 2 ↔
        spatialSqKm ⟨1, "", 0, 0, 0, 1⟩ ⟨2, "", 2/111, 0, 3, 1⟩ ≤ SPATIAL_EPS_KM ^ 2 ∧
        ((0 : ℚ) - 3) ^ 2 ≤ TEMPORAL_EPS_DAYS ^ 2) := by
  norm_num [euclidSq, feature, spatialSqKm, SPATIAL_EPS_DEG, SPATIAL_EPS_KM,
    TEMPORAL_EPS_DAYS, KM_PER_DEG_LAT, TIME_SCALE]

/-- C4 (amended): the equivalence holds in one direction — if two feature
vectors are within Euclidean distance `SPATIAL_EPS_DEG` of each other, then
the two encounters are within `SPATIAL_EPS_KM` (2 km, under the 111 km/degree
planar approximation) of each other spatially and within `TEMPORAL_EPS_DAYS`
(3 days) of each other in time.  The converse can fail (see the
counterexample). -/
theorem feature_eps_implies_spatial_temporal (refTime : ℚ) (e1 e2 : Encounter)
    (h : euclidSq (feature refTime e1) (feature refTime e2) ≤ SPATIAL_EPS_DEG ^ 2) :
    spatialSqKm e1 e2 ≤ SPATIAL_EPS_KM ^ 2 ∧
      (e1.timestamp - e2.timestamp) ^ 2 ≤ TEMPORAL_EPS_DAYS ^ 2 := by
  simp only [euclidSq, feature, spatialSqKm, SPATIAL_EPS_DEG, SPATIAL_EPS_KM,
    TEMPORAL_EPS_DAYS, KM_PER_DEG_LAT, TIME_SCALE] at h ⊢
  norm_num at h ⊢
  constructor
  · nlinarith [sq_nonneg ((e1.timestamp - refTime) * (2/333) - (e2.timestamp - refTime) * (2/333))]
  · nlinarith [sq_nonneg (e1.lat - e2.lat), sq_nonneg (e1.lng - e2.lng)]

/-- Witness for C4's amended theorem at a concrete input. -/
theorem feature_eps_implies_spatial_temporal_witness :
    euclidSq (feature 0 ⟨1, "", 10, 20, 5, 2⟩) (feature 0 ⟨1, "", 10, 20, 5, 2⟩)
        ≤ SPATIAL_EPS_DEG ^ 2 ∧
      (spatialSqKm ⟨1, "", 10, 20, 5, 2⟩ ⟨1, "", 10, 20, 5, 2⟩ ≤ SPATIAL_EPS_KM ^ 2 ∧
        ((5 : ℚ) - 5) ^ 2 ≤ TEMPORAL_EPS_DAYS ^ 2) := by
  have hle : euclidSq (feature 0 ⟨1, "", 10, 20, 5, 2⟩) (feature 0 ⟨1, "", 10, 20, 5, 2⟩)
      ≤ SPATIAL_EPS_DEG ^ 2 := by
    norm_num [euclidSq, feature, SPATIAL_EPS_DEG, KM_PER_DEG_LAT, SPATIAL_EPS_KM]
  exact ⟨hle, feature_eps_implies_spatial_temporal 0 _ _ hle⟩

/-! ### C5/C6: the disease matcher -/

theorem list_find?_congr {α : Type} (l : List α) (p q : α → Bool)
    (h : ∀ x ∈ l, p x = q x) : l.find? p = l.find? q := by
  induction l with
  | nil => rfl
  | cons x rest ih =>
    have hx := h x (List.mem_cons_self x rest)
    by_cases hp : p x = true
    · rw [List.find?_cons_of_pos _ hp, List.find?_cons_of_pos _ (hx ▸ hp)]
    · rw [List.find?_cons_of_neg _ (by simpa using hp),
        List.find?_cons_of_neg _ (by simp [← hx]; simpa using hp)]
      exact ih (fun y hy => h y (List.mem_cons_of_mem _ hy))

theorem first_match_eq_ci (counts : SymptomCounts) (kw : String)
    (hkw : lowerStr kw = kw) (hc : ∀ p ∈ counts, lowerStr p.1 = p.1) :
    first_match counts kw = first_match_ci counts kw := by
  apply list_find?_congr
  intro rc hrc
  simp [ciContains, hc rc hrc, hkw]

/-- The score-accumulating fold of `_match_disease` is the spec's sum. -/
theorem score_fold_eq_sum (counts : SymptomCounts) (total : Nat)
    (hc : ∀ p ∈ counts, lowerStr p.1 = p.1) (l : List (String × ℚ)) (c : ℚ) :
    (∀ p ∈ l, lowerStr p.1 = p.1) →
    l.foldl
      (fun acc kwv =>
        match first_match counts kwv.1 with
        | some rc => acc + kwv.2 * min ((rc.2 : ℚ) / (total : ℚ)) 1
        | none => acc) c
      = c + (l.map (kw_contribution counts total)).sum := by
  induction l generalizing c with
  | nil => intro _; simp
  | cons p rest ih =>
    intro hk
    have hp : first_match counts p.1 = first_match_ci counts p.1 :=
      first_match_eq_ci counts p.1 (hk p (List.mem_cons_self p rest)) hc
    have hrest := fun c' => ih c' (fun q hq => hk q (List.mem_cons_of_mem _ hq))
    simp only [List.foldl_cons, List.map_cons, List.sum_cons]
    cases hm : first_match_ci counts p.1 with
    | none =>
      rw [show (match first_match counts p.1 with
          | some rc => c + p.2 * min ((rc.2 : ℚ) / (total : ℚ)) 1
          | none => c) = c from by rw [hp, hm]]
      rw [hrest _, kw_contribution, hm]
      ring_nf
    | some rc =>
      rw [show (match first_match counts p.1 with
          | some rc => c + p.2 * min ((rc.2 : ℚ) / (total : ℚ)) 1
          | none => c) = c + p.2 * min ((rc.2 : ℚ) / (total : ℚ)) 1 from by
        rw [hp, hm]]
      rw [hrest _, kw_contribution, hm, min_comm ((rc.2 : ℚ) / (total : ℚ)) 1]
      ring

/-- C5: provided the signature keywords and the reported symptoms are
lowercase-normalised (reported symptoms always are — `_parse_symptoms`
lowercases them — and the signature table declares lowercase keywords), each
signature's score equals the spec's `Σ weight × min(1, freq)` over first
case-insensitive substring matches, multiplied by 1.2 exactly when the member
total reaches the signature's `min_cluster_size`. -/
theorem sig_score_eq_spec (sig : Signature) (counts : SymptomCounts) (total : Nat)
    (hk : ∀ p ∈ sig.probability_weights, lowerStr p.1 = p.1)
    (hc : ∀ p ∈ counts, lowerStr p.1 = p.1) :
    sig_score sig counts total = sig_score_spec sig counts total := by
  unfold sig_score sig_score_spec
  rw [score_fold_eq_sum counts total hc _ 0 hk, zero_add]
  by_cases hb : sig.min_cluster_size.getD 3 ≤ total
  · rw [if_pos (by exact hb), if_pos hb, mul_comm]
  · rw [if_neg (by exact hb), if_neg hb, one_mul]

/-- Witness for C5 at a concrete signature and symptom map. -/
theorem sig_score_eq_spec_witness :
    (∀ p ∈ ([("fever", (1 : ℚ)/2), ("rash", 1/4)] : List (String × ℚ)),
      lowerStr p.1 = p.1) ∧
    (∀ p ∈ ([("high fever", 3), ("cough", 1)] : SymptomCounts),
      lowerStr p.1 = p.1) ∧
    sig_score ⟨[("fever", 1/2), ("rash", 1/4)], some 3⟩
        [("high fever", 3), ("cough", 1)] 4 =
      sig_score_spec ⟨[("fever", 1/2), ("rash", 1/4)], some 3⟩
        [("high fever", 3), ("cough", 1)] 4 :=
  ⟨by decide, by decide, sig_score_eq_spec _ _ _ (by decide) (by decide)⟩

theorem best_fold_of_le (f : String × Signature → ℚ)
    (l : List (String × Signature)) (b : String × ℚ)
    (h : ∀ p ∈ l, f p ≤ b.2) : best_fold f l b = b := by
  induction l generalizing b with
  | nil => rfl
  | cons p rest ih =>
    have hp : ¬ b.2 < f p := not_lt.mpr (h p (List.mem_cons_self p rest))
    rw [best_fold, if_neg hp]
    exact ih b (fun q hq => h q (List.mem_cons_of_mem _ hq))

theorem best_fold_argmax (f : String × Signature → ℚ) :
    ∀ (l : List (String × Signature)) (b : String × ℚ) (i : Nat) (h : i < l.length),
      b.2 < f (l.get ⟨i, h⟩) →
      (∀ j (hj : j < i), f (l.get ⟨j, Nat.lt_trans hj h⟩) < f (l.get ⟨i, h⟩)) →
      (∀ j (hj : j < l.length), f (l.get ⟨j, hj⟩) ≤ f (l.get ⟨i, h⟩)) →
      best_fold f l b = ((l.get ⟨i, h⟩).1, f (l.get ⟨i, h⟩))
  | [], _, i, h => absurd h (Nat.not_lt_zero i)
  | p :: rest, b, 0, h => by
    intro hb _ hall
    rw [best_fold, if_pos (by simpa using hb)]
    apply best_fold_of_le
    intro q hq
    obtain ⟨j, hj, rfl⟩ := List.mem_iff_get.mp hq
    simpa using hall (j + 1) (Nat.succ_lt_succ j.isLt)
  | p :: rest, b, k + 1, h => by
    intro hb hstrict hall
    have hk : k < rest.length := Nat.lt_of_succ_lt_succ h
    have hp0 : f p < f (rest.get ⟨k, hk⟩) := by
      simpa using hstrict 0 (Nat.succ_pos k)
    have htgt : (p :: rest).get ⟨k + 1, h⟩ = rest.get ⟨k, hk⟩ := rfl
    rw [best_fold]
    by_cases hcase : b.2 < f p
    · rw [if_pos hcase]
      rw [htgt] at *
      exact best_fold_argmax f rest (p.1, f p) k hk hp0
        (fun j hj => by simpa using hstrict (j + 1) (Nat.succ_lt_succ hj))
        (fun j hj => by simpa using hall (j + 1) (Nat.succ_lt_succ hj))
    · rw [if_neg hcase]
      rw [htgt] at *
      exact best_fold_argmax f rest b k hk (by simpa using hb)
        (fun j hj => by simpa using hstrict (j + 1) (Nat.succ_lt_succ hj))
        (fun j hj => by simpa using hall (j + 1) (Nat.succ_lt_succ hj))

/-- C6: the probable disease is the signature with the strictly highest
score; on ties the signature declared earlier in the table wins (being a pure
function of the table, the result is identical on every run); if every
signature scores 0 the result is `"unknown"`. -/
theorem match_disease_argmax (sigs : List (String × Signature))
    (counts : SymptomCounts) (total : Nat) :
    ((∀ p ∈ sigs, sig_score p.2 counts total = 0) →
      (match_disease sigs counts total).1 = "unknown") ∧
    (∀ i (h : i < sigs.length),
      0 < sig_score (sigs.get ⟨i, h⟩).2 counts total →
      (∀ j (hj : j < i), sig_score (sigs.get ⟨j, Nat.lt_trans hj h⟩).2 counts total <
        sig_score (sigs.get ⟨i, h⟩).2 counts total) →
      (∀ j (hj : j < sigs.length), sig_score (sigs.get ⟨j, hj⟩).2 counts total ≤
        sig_score (sigs.get ⟨i, h⟩).2 counts total) →
      (match_disease sigs counts total).1 = (sigs.get ⟨i, h⟩).1) := by
  constructor
  · intro hz
    unfold match_disease
    rw [best_fold_of_le _ _ _ (fun p hp => by simp [hz p hp])]
  · intro i h hpos hstrict hall
    have hb := best_fold_argmax (fun p => sig_score p.2 counts total) sigs
      ("unknown", 0) i h (by simpa using hpos) hstrict hall
    simp only [match_disease, hb]

/-- Witness for C6: two identically-scoring signatures resolve to the
earlier-declared one. -/
theorem match_disease_argmax_witness :
    (match_disease
        [("cholera", ⟨[("fever", 1/2)], some 3⟩),
         ("typhoid", ⟨[("fever", 1/2)], some 3⟩)]
        [("fever", 2)] 2).1 = "cholera" := by
  exact (match_disease_argmax _ _ _).2 0 (by norm_num) (by decide)
    (fun j hj => (Nat.not_lt_zero j hj).elim)
    (by
      intro j hj
      simp only [List.length_cons, List.length_nil] at hj
      interval_cases j <;> exact le_refl _)

/-! ### C7: the anomaly scorer -/

theorem round2_nonneg (q : ℚ) (h : 0 ≤ q) : 0 ≤ round2 q := by
  unfold round2
  apply div_nonneg _ (by norm_num)
  have hz : (0 : ℤ) ≤ round (q * 100) := by
    rw [round_eq]
    exact Int.le_floor.mpr (by push_cast; linarith)
  exact_mod_cast hz

/-- C7: the anomaly score is
`round₂(max(0, (observed_rate − baseline)/baseline))` when `baseline > 0` and
`round₂(max(0, observed_rate))` otherwise, with
`observed_rate = case_count / max(days_span, 1)` and the baseline defaulting
to `0.01` for diseases absent from the region's table (itself defaulting to
the `"default"` table for unknown regions); in particular the result is
always ≥ 0. -/
theorem anomaly_score_formula (rates : BaselineRates) (disease : String)
    (case_count : Nat) (days_span : ℚ) (region : String) :
    (anomaly_score rates disease case_count days_span region =
      round2 (max
        (if 0 < ((((rates.regions.lookup region).getD rates.dflt).lookup
              disease).getD (1/100))
         then ((case_count : ℚ) / max days_span 1 -
              ((((rates.regions.lookup region).getD rates.dflt).lookup
                disease).getD (1/100))) /
              ((((rates.regions.lookup region).getD rates.dflt).lookup
                disease).getD (1/100))
         else (case_count : ℚ) / max days_span 1) 0)) ∧
    0 ≤ anomaly_score rates disease case_count days_span region := by
  refine ⟨rfl, ?_⟩
  unfold anomaly_score
  exact round2_nonneg _ (le_max_right _ _)

/-! ### C10: the anomaly score never sees the cluster's location -/

/-- C10: the anomaly score attached to a cluster depends only on its probable
disease, its case count and its member time span — two member lists agreeing
on those three values (in particular lists at entirely different locations)
receive the same anomaly score — because the `run_clustering` call site
leaves `_anomaly_score`'s `region` parameter at its fixed default `"dhaka"`:
only the `"dhaka"` entry of the baseline table (or the `"default"` fallback
when `"dhaka"` is absent) can influence the result. -/
theorem cluster_anomaly_independent_of_location
    (sigs : List (String × Signature)) (rates alt : BaselineRates)
    (ms1 ms2 : List Encounter) :
    (∀ counts1 counts2, symptom_counts ms1 = .ok counts1 →
      symptom_counts ms2 = .ok counts2 →
      (match_disease sigs counts1 ms1.length).1 =
        (match_disease sigs counts2 ms2.length).1 →
      ms1.length = ms2.length → cluster_span ms1 = cluster_span ms2 →
      cluster_anomaly sigs rates ms1 = cluster_anomaly sigs rates ms2) ∧
    (alt.regions.lookup "dhaka" = rates.regions.lookup "dhaka" →
      alt.dflt = rates.dflt →
      cluster_anomaly sigs alt ms1 = cluster_anomaly sigs rates ms1) := by
  constructor
  · intro c1 c2 h1 h2 hd hl hs
    unfold cluster_anomaly
    rw [h1, h2]
    simp only [Except.map]
    rw [hd, hl, hs]
  · intro hr hdf
    unfold cluster_anomaly anomaly_score
    rw [hr, hdf]

/-- Witness for C10: two clusters with identical symptoms and timestamps but
entirely different coordinates (and ids) get the same anomaly score. -/
theorem cluster_anomaly_independent_of_location_witness :
    cluster_anomaly [("cholera", ⟨[("fever", 1/2)], some 3⟩)]
        ⟨[("dhaka", [("cholera", 1/10)])], [("cholera", 2/10)]⟩
        [⟨1, "fever", 0, 0, 0, 3⟩, ⟨2, "fever", 0, 0, 1, 3⟩,
          ⟨3, "fever", 0, 0, 2, 3⟩] =
      cluster_anomaly [("cholera", ⟨[("fever", 1/2)], some 3⟩)]
        ⟨[("dhaka", [("cholera", 1/10)])], [("cholera", 2/10)]⟩
        [⟨4, "fever", 50, 60, 0, 3⟩, ⟨5, "fever", 50, 60, 1, 3⟩,
          ⟨6, "fever", 50, 60, 2, 3⟩] :=
  (cluster_anomaly_independent_of_location _ _
      ⟨[("dhaka", [("cholera", 1/10)])], [("cholera", 2/10)]⟩ _ _).1
    [("fever", 3)] [("fever", 3)] rfl rfl rfl rfl rfl

/-! ### C8: the cluster radius bounds its members -/

theorem round2R_close (x : ℝ) : |round2R x - x| ≤ 1/200 := by
  unfold round2R
  have h := abs_sub_round (x * 100)
  have heq : ((round (x * 100) : ℤ) : ℝ) / 100 - x
      = -((x * 100 - ((round (x * 100) : ℤ) : ℝ)) / 100) := by ring
  rw [heq, abs_neg, abs_div, abs_of_pos (show (0:ℝ) < 100 by norm_num)]
  rw [div_le_div_iff₀ (by norm_num) (by norm_num)]
  nlinarith [h]

theorem round2R_mono {x y : ℝ} (h : x ≤ y) : round2R x ≤ round2R y := by
  unfold round2R
  have hr : round (x * 100) ≤ round (y * 100) := by
    rw [round_eq, round_eq]
    exact Int.floor_le_floor (by linarith)
  have hc : ((round (x * 100) : ℤ) : ℝ) ≤ ((round (y * 100) : ℤ) : ℝ) :=
    Int.cast_le.mpr hr
  linarith

theorem round2R_tenth : round2R (0.1 : ℝ) = 1/10 := by
  unfold round2R
  have h1 : (0.1 : ℝ) * 100 = ((10 : ℤ) : ℝ) := by norm_num
  rw [h1, round_intCast]
  norm_num

theorem mem_le_max_haversine (clat clng : ℝ) :
    ∀ (ms : List Encounter), ∀ m ∈ ms,
      haversine_km clat clng (m.lat : ℝ) (m.lng : ℝ) ≤ max_haversine clat clng ms
  | [], m, hm => absurd hm (List.not_mem_nil m)
  | [m0], m, hm => by
    rw [List.mem_singleton.mp hm]
    exact le_refl _
  | m0 :: m1 :: rest, m, hm => by
    rcases List.mem_cons.mp hm with hm0 | hm1
    · rw [hm0]
      exact le_max_left _ _
    · exact le_trans (mem_le_max_haversine clat clng (m1 :: rest) m hm1)
        (le_max_right _ _)

/-- C8: the stored `radius_km` is (the 2-decimal rounding of) the maximum
haversine distance from the centroid to any member, floored at 0.1 km: it is
always at least 0.1, every member's haversine distance from the centre is at
most the pre-rounding radius, hence at most the stored `radius_km` plus the
1/200 km (5 m) rounding tolerance, the stored value is within 1/200 of the
exact floored maximum, and `build_cluster` stores exactly this value. -/
theorem cluster_radius_km_spec (ms : List Encounter) :
    (1/10 : ℝ) ≤ cluster_radius_km ms ∧
    (∀ m ∈ ms,
      haversine_km ((centroid_lat ms : ℚ) : ℝ) ((centroid_lng ms : ℚ) : ℝ)
          (m.lat : ℝ) (m.lng : ℝ) ≤ cluster_radius ms ∧
      haversine_km ((centroid_lat ms : ℚ) : ℝ) ((centroid_lng ms : ℚ) : ℝ)
          (m.lat : ℝ) (m.lng : ℝ) ≤ cluster_radius_km ms + 1/200) ∧
    |cluster_radius_km ms - cluster_radius ms| ≤ 1/200 ∧
    (∀ sigs rates c, build_cluster sigs rates ms = .ok c →
      c.radius_km = cluster_radius_km ms) := by
  have hfloor : (0.1 : ℝ) ≤ cluster_radius ms := le_max_right _ _
  have hclose := round2R_close (cluster_radius ms)
  refine ⟨?_, ?_, hclose, ?_⟩
  · have := round2R_mono hfloor
    rw [round2R_tenth] at this
    exact this
  · intro m hm
    have hmem : haversine_km ((centroid_lat ms : ℚ) : ℝ) ((centroid_lng ms : ℚ) : ℝ)
        (m.lat : ℝ) (m.lng : ℝ) ≤ cluster_radius ms :=
      le_trans (mem_le_max_haversine _ _ ms m hm) (le_max_left _ _)
    refine ⟨hmem, ?_⟩
    have habs := abs_le.mp hclose
    unfold cluster_radius_km at habs ⊢
    linarith [habs.1]
  · intro sigs rates c hc
    cases hsc : symptom_counts ms with
    | error e => rw [build_cluster, hsc] at hc; exact absurd hc (by simp [Except.map])
    | ok counts =>
      rw [build_cluster, hsc] at hc
      simp only [Except.map, Except.ok.injEq] at hc
      rw [← hc]

/-- Witness for C8 at a singleton cluster. -/
theorem cluster_radius_km_spec_witness :
    haversine_km ((centroid_lat [⟨1, "", 0, 0, 0, 1⟩] : ℚ) : ℝ)
        ((centroid_lng [⟨1, "", 0, 0, 0, 1⟩] : ℚ) : ℝ)
        (((⟨1, "", 0, 0, 0, 1⟩ : Encounter).lat : ℚ) : ℝ)
        (((⟨1, "", 0, 0, 0, 1⟩ : Encounter).lng : ℚ) : ℝ)
      ≤ cluster_radius_km [⟨1, "", 0, 0, 0, 1⟩] + 1/200 ∧
    (1/10 : ℝ) ≤ cluster_radius_km [⟨1, "", 0, 0, 0, 1⟩] ∧
    (⟨0, 0, cluster_radius_km [⟨1, "", 0, 0, 0, 1⟩],
        anomaly_score ⟨[], []⟩ (match_disease [] [] 1).1 1
          (cluster_span [⟨1, "", 0, 0, 0, 1⟩]),
        1, [], (match_disease [] [] 1).1, (match_disease [] [] 1).2,
        [1]⟩ : ClusterOut).radius_km
      = cluster_radius_km [⟨1, "", 0, 0, 0, 1⟩] :=
  ⟨((cluster_radius_km_spec [⟨1, "", 0, 0, 0, 1⟩]).2.1 ⟨1, "", 0, 0, 0, 1⟩
      (List.mem_singleton.mpr rfl)).2,
    (cluster_radius_km_spec [⟨1, "", 0, 0, 0, 1⟩]).1,
    (cluster_radius_km_spec [⟨1, "", 0, 0, 0, 1⟩]).2.2.2 [] ⟨[], []⟩ _ rfl⟩

/-! ### C2: fewer than `MIN_SAMPLES` encounters -/

/-- C2: with fewer than `MIN_SAMPLES` (3) encounter rows, `run_clustering`
returns the empty cluster list and raises no error (an `.ok` result), for
every signature table, baseline table and DBSCAN labelling. -/
theorem run_clustering_empty_below_min_samples (sigs : List (String × Signature))
    (rates : BaselineRates) (dbscan : List (ℚ × ℚ × ℚ) → List Int)
    (encs : List Encounter) (h : encs.length < MIN_SAMPLES) :
    run_clustering sigs rates dbscan encs = .ok [] := by
  unfold run_clustering
  rw [if_pos h]

/-- Witness for C2 on a two-encounter input. -/
theorem run_clustering_empty_below_min_samples_witness :
    ([⟨1, "fever", 0, 0, 0, 1⟩, ⟨2, "fever", 0, 0, 1, 1⟩] : List Encounter).length
        < MIN_SAMPLES ∧
    run_clustering [] ⟨[], []⟩ (fun _ => [])
        [⟨1, "fever", 0, 0, 0, 1⟩, ⟨2, "fever", 0, 0, 1, 1⟩] = .ok [] :=
  ⟨by decide,
    run_clustering_empty_below_min_samples [] ⟨[], []⟩ (fun _ => []) _ (by decide)⟩

/-! ### C1/C9: the replace-active-epoch persistence contract -/

theorem detect_clusters_eq (found : List ClusterOut) (st : DBState)
    (hne : found ≠ []) :
    (detect_and_store found st).2.clusters
      = st.clusters.filter (fun r => !(r.status == "active"))
        ++ insertRows found st.next_cluster_id := by
  unfold detect_and_store
  rw [if_neg (by simpa [List.isEmpty_iff] using hne)]

theorem detect_events_eq (found : List ClusterOut) (st : DBState)
    (hne : found ≠ []) :
    (detect_and_store found st).2.agent_events
      = st.agent_events.map (fun e =>
          match e.cluster_id with
          | some cid => if cid ∈ active_ids st then { e with cluster_id := none }
            else e
          | none => e) := by
  unfold detect_and_store
  rw [if_neg (by simpa [List.isEmpty_iff] using hne)]

theorem detect_next_eq (found : List ClusterOut) (st : DBState)
    (hne : found ≠ []) :
    (detect_and_store found st).2.next_cluster_id
      = st.next_cluster_id + found.length := by
  unfold detect_and_store
  rw [if_neg (by simpa [List.isEmpty_iff] using hne)]

theorem detect_fst_eq (found : List ClusterOut) (st : DBState)
    (hne : found ≠ []) :
    (detect_and_store found st).1 = insertRows found st.next_cluster_id := by
  unfold detect_and_store
  rw [if_neg (by simpa [List.isEmpty_iff] using hne)]

theorem insertRows_ids : ∀ (cs : List ClusterOut) (n : Nat),
    (insertRows cs n).map (·.id) = List.range' n cs.length
  | [], _ => rfl
  | c :: cs, n => by
    simp [insertRows, mkRow, insertRows_ids cs (n + 1), List.range'_succ]

theorem insertRows_status (cs : List ClusterOut) (n : Nat) :
    ∀ r ∈ insertRows cs n, r.status = "active" := by
  induction cs generalizing n with
  | nil => intro r hr; cases hr
  | cons c rest ih =>
    intro r hr
    rcases List.mem_cons.mp hr with rfl | hmem
    · rfl
    · exact ih (n + 1) r hmem

theorem active_after (found : List ClusterOut) (st : DBState) (hne : found ≠ []) :
    (detect_and_store found st).2.clusters.filter (fun r => r.status == "active")
      = insertRows found st.next_cluster_id := by
  rw [detect_clusters_eq found st hne, List.filter_append]
  have h1 : (st.clusters.filter (fun r => !(r.status == "active"))).filter
      (fun r => r.status == "active") = [] := by
    rw [List.filter_eq_nil_iff]
    intro r hr
    have := (List.mem_filter.mp hr).2
    simpa using this
  have h2 : (insertRows found st.next_cluster_id).filter
      (fun r => r.status == "active") = insertRows found st.next_cluster_id := by
    rw [List.filter_eq_self]
    intro r hr
    simp [insertRows_status found st.next_cluster_id r hr]
  rw [h1, h2, List.nil_append]

theorem old_active_gone (found : List ClusterOut) (st : DBState) (hne : found ≠ [])
    (hnodup : (st.clusters.map (·.id)).Nodup)
    (hbound : ∀ r ∈ st.clusters, r.id < st.next_cluster_id) :
    ∀ r ∈ st.clusters, r.status = "active" →
      r.id ∉ (detect_and_store found st).2.clusters.map (·.id) := by
  intro r hr hact hmem
  rw [detect_clusters_eq found st hne, List.map_append] at hmem
  rcases List.mem_append.mp hmem with hk | hn
  · obtain ⟨r', hr', hid⟩ := List.mem_map.mp hk
    have hr'mem := (List.mem_filter.mp hr').1
    have hr'stat := (List.mem_filter.mp hr').2
    have heq : r' = r := List.inj_on_of_nodup_map hnodup hr'mem hr hid
    rw [heq, hact] at hr'stat
    simp at hr'stat
  · rw [insertRows_ids] at hn
    have hle := (List.mem_range'_1.mp hn).1
    exact absurd (hbound r hr) (not_lt.mpr hle)

theorem events_clean (found : List ClusterOut) (st : DBState) (hne : found ≠ []) :
    ∀ e ∈ (detect_and_store found st).2.agent_events,
      ∀ cid ∈ active_ids st, e.cluster_id ≠ some cid := by
  intro e he cid hcid
  rw [detect_events_eq found st hne] at he
  obtain ⟨e0, _, rfl⟩ := List.mem_map.mp he
  cases h0 : e0.cluster_id with
  | none => simp [h0]
  | some c0 =>
    by_cases hc : c0 ∈ active_ids st
    · simp [h0, hc]
    · simp only [h0, if_neg hc]
      intro hEq
      have : c0 = cid := by simpa [h0] using hEq
      exact hc (this ▸ hcid)

theorem nodup_after (found : List ClusterOut) (st : DBState) (hne : found ≠ [])
    (hnodup : (st.clusters.map (·.id)).Nodup)
    (hbound : ∀ r ∈ st.clusters, r.id < st.next_cluster_id) :
    ((detect_and_store found st).2.clusters.map (·.id)).Nodup := by
  rw [detect_clusters_eq found st hne, List.map_append]
  rw [List.nodup_append]
  refine ⟨?_, ?_, ?_⟩
  · exact hnodup.sublist ((List.filter_sublist _).map _)
  · rw [insertRows_ids]
    exact List.nodup_range' _ _
  · intro a ha hb
    obtain ⟨r', hr', rfl⟩ := List.mem_map.mp ha
    have hmem := (List.mem_filter.mp hr').1
    rw [insertRows_ids] at hb
    have hle := (List.mem_range'_1.mp hb).1
    exact absurd (hbound r' hmem) (not_lt.mpr hle)

theorem bound_after (found : List ClusterOut) (st : DBState) (hne : found ≠ [])
    (hbound : ∀ r ∈ st.clusters, r.id < st.next_cluster_id) :
    ∀ r ∈ (detect_and_store found st).2.clusters,
      r.id < (detect_and_store found st).2.next_cluster_id := by
  rw [detect_clusters_eq found st hne, detect_next_eq found st hne]
  intro r hr
  rcases List.mem_append.mp hr with hk | hn
  · exact Nat.lt_of_lt_of_le (hbound r (List.mem_filter.mp hk).1)
      (Nat.le_add_right _ _)
  · have : r.id ∈ (insertRows found st.next_cluster_id).map (·.id) :=
      List.mem_map.mpr ⟨r, hn, rfl⟩
    rw [insertRows_ids] at this
    exact (List.mem_range'_1.mp this).2

theorem active_ids_after (found : List ClusterOut) (st : DBState) (hne : found ≠ []) :
    active_ids (detect_and_store found st).2
      = List.range' st.next_cluster_id found.length := by
  unfold active_ids
  rw [active_after found st hne, insertRows_ids]

/-- C1: a `detect_and_store` invocation that found at least one cluster
replaces the active epoch: afterwards the rows with status `'active'` are
exactly the freshly inserted ones (also the returned list), no previously
active row id remains in the table, and no `agent_events` row references a
previously active cluster id; moreover, after a second invocation that also
finds clusters, the active set is exactly the second run's rows and none of
the first run's ids is active or referenced by any event.  The hypotheses are
the SQLite invariants: primary-key ids are distinct and below the
`AUTOINCREMENT` counter. -/
theorem detect_and_store_replaces_active (found : List ClusterOut) (st : DBState)
    (hne : found ≠ [])
    (hnodup : (st.clusters.map (·.id)).Nodup)
    (hbound : ∀ r ∈ st.clusters, r.id < st.next_cluster_id) :
    ((detect_and_store found st).2.clusters.filter (fun r => r.status == "active")
      = insertRows found st.next_cluster_id) ∧
    ((detect_and_store found st).1 = insertRows found st.next_cluster_id) ∧
    (∀ r ∈ st.clusters, r.status = "active" →
      r.id ∉ (detect_and_store found st).2.clusters.map (·.id)) ∧
    (∀ e ∈ (detect_and_store found st).2.agent_events,
      ∀ cid ∈ active_ids st, e.cluster_id ≠ some cid) ∧
    (∀ found2, found2 ≠ [] →
      ((detect_and_store found2 (detect_and_store found st).2).2.clusters.filter
          (fun r => r.status == "active")
        = insertRows found2 (detect_and_store found st).2.next_cluster_id) ∧
      (∀ i ∈ (insertRows found st.next_cluster_id).map (·.id),
        i ∉ active_ids (detect_and_store found2 (detect_and_store found st).2).2 ∧
        ∀ e ∈ (detect_and_store found2 (detect_and_store found st).2).2.agent_events,
          e.cluster_id ≠ some i)) := by
  refine ⟨active_after found st hne, detect_fst_eq found st hne,
    old_active_gone found st hne hnodup hbound, events_clean found st hne,
    ?_⟩
  intro found2 hne2
  refine ⟨active_after found2 _ hne2, ?_⟩
  intro i hi
  rw [insertRows_ids] at hi
  have hi1 := List.mem_range'_1.mp hi
  constructor
  · intro hmem
    rw [active_ids_after found2 _ hne2, detect_next_eq found st hne] at hmem
    have := (List.mem_range'_1.mp hmem).1
    omega
  · intro e he
    apply events_clean found2 _ hne2 e he i
    rw [active_ids_after found st hne]
    exact hi

/-- Witness for C1 at a concrete state: one previously active row (id 1), one
resolved row (id 2), events referencing both, and one newly found cluster. -/
theorem detect_and_store_replaces_active_witness :
    (detect_and_store [⟨10, 20, (0 : ℝ), 0, 1, [], "dengue", 0, [7]⟩]
        ⟨[⟨1, 0, 0, (0 : ℝ), 0, 1, [], "cholera", 0, "active"⟩,
          ⟨2, 0, 0, (0 : ℝ), 0, 1, [], "typhoid", 0, "resolved"⟩],
         [⟨1, "research", "m", "info", some 1⟩,
          ⟨2, "response", "m", "info", some 2⟩,
          ⟨3, "intake", "m", "info", none⟩], 3⟩).2.clusters.filter
      (fun r => r.status == "active")
      = insertRows [⟨10, 20, (0 : ℝ), 0, 1, [], "dengue", 0, [7]⟩] 3 :=
  (detect_and_store_replaces_active
      [⟨10, 20, (0 : ℝ), 0, 1, [], "dengue", 0, [7]⟩]
      ⟨[⟨1, 0, 0, (0 : ℝ), 0, 1, [], "cholera", 0, "active"⟩,
        ⟨2, 0, 0, (0 : ℝ), 0, 1, [], "typhoid", 0, "resolved"⟩],
       [⟨1, "research", "m", "info", some 1⟩,
        ⟨2, "response", "m", "info", some 2⟩,
        ⟨3, "intake", "m", "info", none⟩], 3⟩
      (List.cons_ne_nil _ _) (by decide) (by decide)).1

/-- C9: a `detect_and_store` invocation that found zero clusters returns the
empty list and leaves the persisted state untouched: every previously active
cluster row and every `agent_events` reference is exactly as it was. -/
theorem detect_and_store_noop_on_empty (st : DBState) :
    detect_and_store [] st = ([], st) := rfl

end Sentinel
